import Mathlib

/-!
Verification of the contact-form controller of src/src/App.jsx.

The JavaScript strings are modelled as lists of characters; JavaScript
objects used as string-keyed maps are modelled as functions from String.
The controller state (the React useState hooks form, errors, isSubmitting,
mailSent) together with the pending setTimeout callbacks is modelled as a
structure MState, and every event handler of the component is translated
into a state transformer.
-/

namespace ContactForm

/-- Whitespace test used to model both the regex class backslash-s and the
JavaScript String.prototype.trim. -/
def isJsSpace (c : Char) : Bool := c.isWhitespace

/-- Model of JavaScript value.trim(): drop whitespace from both ends. -/
def jsTrim (s : List Char) : List Char :=
  ((s.dropWhile isJsSpace).reverse.dropWhile isJsSpace).reverse

/-- A character admitted by the regex character class excluding whitespace
and the at-sign, used for all three parts of the email pattern. -/
def isEmailAtomChar (c : Char) : Bool := !isJsSpace c && !(c == '@')

/-- Split a list at the first occurrence of a character, returning the part
before it and the part after it. -/
def splitAtFirst (c : Char) : List Char → Option (List Char × List Char)
  | [] => none
  | x :: xs =>
    if x = c then some ([], xs)
    else Option.map (fun p => (x :: p.1, p.2)) (splitAtFirst c xs)

/-- Whether a list can be split around a dot with a nonempty part on each
side, as demanded by the part of the email regex after the at-sign. -/
def hasInteriorDot : List Char → Bool
  | [] => false
  | [_] => false
  | _ :: y :: ys => (y == '.' && !ys.isEmpty) || hasInteriorDot (y :: ys)

/-- Executable matcher for the anchored email regex of App.jsx line 23.
The local part is everything before the first at-sign; the remainder must
contain no whitespace and no at-sign and must carry a dot with nonempty
segments on both sides. -/
def emailRegexTest (s : List Char) : Bool :=
  match splitAtFirst '@' s with
  | none => false
  | some (a, d) =>
    !a.isEmpty && a.all isEmailAtomChar && d.all isEmailAtomChar && hasInteriorDot d

/-- Declarative semantics of the anchored regex: the string is exactly a
nonempty atom block, an at-sign, a nonempty atom block, a dot, and a
nonempty atom block. -/
def MatchesEmailPattern (s : List Char) : Prop :=
  ∃ a b c : List Char,
    s = a ++ '@' :: (b ++ '.' :: c) ∧ a ≠ [] ∧ b ≠ [] ∧ c ≠ [] ∧
    (∀ x ∈ a, isEmailAtomChar x = true) ∧
    (∀ x ∈ b, isEmailAtomChar x = true) ∧
    (∀ x ∈ c, isEmailAtomChar x = true)

/-- Error message for the name field, from App.jsx. -/
def nameErrorMsg : String := "Please enter your name (min 2 characters)."

/-- Error message for the email field, from App.jsx. -/
def emailErrorMsg : String := "Please enter a valid email address."

/-- Error message for the message field, from App.jsx. -/
def messageErrorMsg : String := "Message must be at least 10 characters."

/-- Translation of validateField from App.jsx lines 41 to 55. -/
def validateField (field : String) (value : List Char) : String :=
  if field = "name" then
    if value = [] ∨ (jsTrim value).length < 2 then nameErrorMsg else ""
  else if field = "email" then
    if value = [] ∨ emailRegexTest (jsTrim value) = false then emailErrorMsg else ""
  else if field = "message" then
    if value = [] ∨ (jsTrim value).length < 10 then messageErrorMsg else ""
  else ""

/-- Translation of validateAll from App.jsx lines 26 to 38.  The result is
the association list of the constructed error object; the list order is the
insertion order of the keys, which is the enumeration order of
Object.keys. -/
def validateAll (values : String → List Char) : List (String × String) :=
  (if values "name" = [] ∨ (jsTrim (values "name")).length < 2 then
    [("name", nameErrorMsg)] else []) ++
  ((if values "email" = [] ∨ emailRegexTest (jsTrim (values "email")) = false then
    [("email", emailErrorMsg)] else []) ++
  (if values "message" = [] ∨ (jsTrim (values "message")).length < 10 then
    [("message", messageErrorMsg)] else []))

/-- Delay in milliseconds of the simulated send, App.jsx line 106. -/
def sendDelayMs : Nat := 700

/-- Delay in milliseconds before the success toast hides, App.jsx line 105. -/
def revertDelayMs : Nat := 3000

/-- The controller state: the four useState hooks of App (form, errors,
isSubmitting, mailSent), whether the keydown listener installed by the
useEffect is attached, and the multisets of pending setTimeout callbacks
(each recorded by its scheduled delay, in scheduling order). -/
structure MState where
  form : String → List Char
  errors : String → Option String
  isSubmitting : Bool
  mailSent : Bool
  escListener : Bool
  pendingSend : List Nat
  pendingRevert : List Nat

/-- The all-empty form record installed by useState and by the reset after
a successful send. -/
def emptyFormVals : String → List Char := fun _ => []

/-- The state right after mounting: empty form, no errors, not submitting,
no toast, keydown listener attached, no pending timers. -/
def initState : MState :=
  { form := emptyFormVals
    errors := fun _ => none
    isSubmitting := false
    mailSent := false
    escListener := true
    pendingSend := []
    pendingRevert := [] }

/-- Translation of handleChange, App.jsx lines 57 to 68: store the value
under the field key and recompute that single field error, deleting the
entry when the validator accepts. -/
def handleChange (s : MState) (f : String) (v : List Char) : MState :=
  { s with
    form := fun k => if k = f then v else s.form k
    errors := fun k =>
      if k = f then (if validateField f v = "" then none else some (validateField f v))
      else s.errors k }

/-- First setErrors call of handleBlur, App.jsx line 73: spread the old
object and, when the validator rejects, also the one-key error object. -/
def blurFirstUpdate (es : String → Option String) (f : String) (v : List Char) :
    String → Option String :=
  if validateField f v = "" then es
  else fun k => if k = f then some (validateField f v) else es k

/-- Second, conditional setErrors call of handleBlur, App.jsx lines 74 to
81: when the validator accepts, delete any stale entry for the field. -/
def blurSecondUpdate (es : String → Option String) (f : String) (v : List Char) :
    String → Option String :=
  if validateField f v = "" then (fun k => if k = f then none else es k) else es

/-- Translation of handleBlur, App.jsx lines 70 to 82, keeping its two
successive state updates. -/
def handleBlur (s : MState) (f : String) (v : List Char) : MState :=
  { s with errors := blurSecondUpdate (blurFirstUpdate s.errors f v) f v }

/-- Translation of handleSubmit, App.jsx lines 84 to 107.  The leading
guard models the submit button being disabled while isSubmitting (App.jsx
line 431): a disabled default button fires no submit event.  Otherwise the
handler replaces the errors with validateAll of the current values and,
when no error was found, flags the send and schedules the 700 ms
callback. -/
def handleSubmit (s : MState) : MState :=
  if s.isSubmitting then s
  else if validateAll s.form ≠ [] then
    { s with errors := fun k => List.lookup k (validateAll s.form) }
  else
    { s with
      errors := fun k => List.lookup k (validateAll s.form)
      isSubmitting := true
      pendingSend := s.pendingSend ++ [sendDelayMs] }

/-- The focus directive emitted by handleSubmit on a blocked submission:
the first key of the freshly computed error object, App.jsx lines 90 to
94. -/
def submitFocusTarget (s : MState) : Option String :=
  if s.isSubmitting then none
  else if validateAll s.form ≠ [] then Option.map Prod.fst (validateAll s.form).head?
  else none

/-- The 700 ms setTimeout callback of App.jsx lines 100 to 106 firing:
stop submitting, show the toast, reset the form, and schedule the 3000 ms
hide.  Firing with no pending callback is a no-op. -/
def fireSendTimer (s : MState) : MState :=
  if s.pendingSend = [] then s
  else
    { s with
      isSubmitting := false
      mailSent := true
      form := emptyFormVals
      pendingSend := s.pendingSend.tail
      pendingRevert := s.pendingRevert ++ [revertDelayMs] }

/-- The 3000 ms setTimeout callback of App.jsx line 105 firing: hide the
toast.  Firing with no pending callback is a no-op. -/
def fireRevertTimer (s : MState) : MState :=
  if s.pendingRevert = [] then s
  else { s with mailSent := false, pendingRevert := s.pendingRevert.tail }

/-- The Escape keydown handler of App.jsx lines 110 to 116: while the
listener is attached, hide the toast. -/
def pressEscape (s : MState) : MState :=
  if s.escListener then { s with mailSent := false } else s

/-- The cleanup returned by the useEffect, App.jsx line 115, run on
unmount: it removes the keydown listener and nothing else; in particular
the source stores no setTimeout handles and never calls clearTimeout, so
the pending timers survive. -/
def unmountCleanup (s : MState) : MState := { s with escListener := false }

/-- The three-valued submission state of the specification. -/
inductive SubmissionState where
  | Idle
  | Sending
  | Succeeded
deriving DecidableEq

/-- The submission state exposed by the controller: isSubmitting drives the
Sending phase and mailSent the transient Succeeded phase. -/
def submissionState (s : MState) : SubmissionState :=
  if s.isSubmitting then SubmissionState.Sending
  else if s.mailSent then SubmissionState.Succeeded
  else SubmissionState.Idle

/-- The discrete external events the controller reacts to. -/
inductive Event where
  | change (f : String) (v : List Char)
  | blur (f : String) (v : List Char)
  | submit
  | sendTimer
  | revertTimer
  | escape

/-- One step of the controller under an external event. -/
def step (s : MState) : Event → MState
  | Event.change f v => handleChange s f v
  | Event.blur f v => handleBlur s f v
  | Event.submit => handleSubmit s
  | Event.sendTimer => fireSendTimer s
  | Event.revertTimer => fireRevertTimer s
  | Event.escape => pressEscape s

/-- Whether an event is a field-change (keystroke) event. -/
def isChangeEvent : Event → Bool
  | Event.change _ _ => true
  | _ => false

/-- States reachable from the mounted initial state through events and the
unmount cleanup. -/
inductive Reachable : MState → Prop where
  | init : Reachable initState
  | next : ∀ {s : MState} (e : Event), Reachable s → Reachable (step s e)
  | cleanup : ∀ {s : MState}, Reachable s → Reachable (unmountCleanup s)

/-- The inductive invariant tying the pending send callbacks to the
isSubmitting flag. -/
def SendInv (s : MState) : Prop :=
  s.pendingSend.length = (if s.isSubmitting then 1 else 0)

/-- A step clears FormValues when the form was not all-empty before it and
is all-empty after it. -/
def ClearsForm (s : MState) (e : Event) : Prop :=
  s.form ≠ emptyFormVals ∧ (step s e).form = emptyFormVals

/-- A step is the Sending to Succeeded transition when the submission state
is Sending before it and Succeeded after it. -/
def SendToSucc (s : MState) (e : Event) : Prop :=
  submissionState s = SubmissionState.Sending ∧
  submissionState (step s e) = SubmissionState.Succeeded

/-- A state with only the email and message fields filled, and those with
values that fail validation. -/
def c2State : MState :=
  step (step initState (Event.change "email" ['x'])) (Event.change "message" "hi".toList)

/-- A state whose three fields all pass validation, reached by three
keystroke events from the initial state. -/
def goodState : MState :=
  step (step (step initState
    (Event.change "name" "ab".toList))
    (Event.change "email" "a@b.co".toList))
    (Event.change "message" "hello there buddy".toList)

/-- The state right after a valid submission: isSubmitting with the 700 ms
callback pending. -/
def sendingState : MState := step goodState Event.submit

/-- A state in the Succeeded toast window whose fields have been refilled
with valid values while the 3000 ms hide callback is still pending. -/
def refilledSuccState : MState :=
  step (step (step (step sendingState Event.sendTimer)
    (Event.change "name" "ab".toList))
    (Event.change "email" "a@b.co".toList))
    (Event.change "message" "hello there buddy".toList)

/-- A state where only the name field holds a (single-character) value. -/
def nameOnlyState : MState := step initState (Event.change "name" ['x'])

/-- A Succeeded state with the toast shown and the hide callback pending. -/
def succState : MState :=
  { form := emptyFormVals
    errors := fun _ => none
    isSubmitting := false
    mailSent := true
    escListener := true
    pendingSend := []
    pendingRevert := [revertDelayMs] }

theorem splitAtFirst_sound (c : Char) :
    ∀ (s a d : List Char), splitAtFirst c s = some (a, d) → s = a ++ c :: d ∧ c ∉ a := by
  intro s
  induction s with
  | nil => intro a d h; simp [splitAtFirst] at h
  | cons x xs ih =>
    intro a d h
    by_cases hx : x = c
    · simp only [splitAtFirst, if_pos hx, Option.some.injEq, Prod.mk.injEq] at h
      obtain ⟨h1, h2⟩ := h
      subst h1; subst h2
      exact ⟨by rw [hx]; rfl, by simp⟩
    · simp only [splitAtFirst, if_neg hx, Option.map_eq_some'] at h
      obtain ⟨⟨p, q⟩, hpq, hval⟩ := h
      obtain ⟨h1, h2⟩ := ih p q hpq
      simp only [Prod.mk.injEq] at hval
      obtain ⟨h3, h4⟩ := hval
      subst h3; subst h4
      refine ⟨by rw [h1]; simp, ?_⟩
      intro hmem
      rcases List.mem_cons.mp hmem with h4 | h4
      · exact hx h4.symm
      · exact h2 h4

theorem splitAtFirst_complete (c : Char) :
    ∀ (a d : List Char), c ∉ a → splitAtFirst c (a ++ c :: d) = some (a, d) := by
  intro a
  induction a with
  | nil => intro d _; simp [splitAtFirst]
  | cons a0 as ih =>
    intro d h
    have h1 : ¬ (a0 = c) := fun hh => h (by rw [hh]; exact List.mem_cons_self c as)
    have h2 : c ∉ as := fun hh => h (List.mem_cons_of_mem _ hh)
    rw [List.cons_append]
    simp only [splitAtFirst, if_neg h1, ih d h2, Option.map_some']

theorem hasInteriorDot_iff (d : List Char) :
    hasInteriorDot d = true ↔ ∃ b c : List Char, d = b ++ '.' :: c ∧ b ≠ [] ∧ c ≠ [] := by
  induction d with
  | nil =>
    simp only [hasInteriorDot]
    constructor
    · intro h; exact absurd h (by decide)
    · rintro ⟨b, c, h, -, -⟩
      exact absurd h.symm (by simp)
  | cons x t ih =>
    cases t with
    | nil =>
      simp only [hasInteriorDot]
      constructor
      · intro h; exact absurd h (by decide)
      · rintro ⟨b, c, h, hb, hc⟩
        cases b with
        | nil => exact absurd rfl hb
        | cons b0 bs =>
          rw [List.cons_append] at h
          injection h with h1 h2
          exact absurd h2.symm (by simp)
    | cons y ys =>
      rw [hasInteriorDot]
      simp only [Bool.or_eq_true, Bool.and_eq_true, beq_iff_eq, Bool.not_eq_true']
      constructor
      · rintro (⟨hy, hys⟩ | h)
        · refine ⟨[x], ys, by rw [hy]; rfl, by simp, ?_⟩
          intro hn; rw [hn] at hys; exact absurd hys (by decide)
        · obtain ⟨b, c, heq, hb, hc⟩ := ih.mp h
          exact ⟨x :: b, c, by rw [List.cons_append, heq], by simp, hc⟩
      · rintro ⟨b, c, heq, hb, hc⟩
        cases b with
        | nil => exact absurd rfl hb
        | cons b0 bs =>
          rw [List.cons_append] at heq
          injection heq with h1 h2
          cases bs with
          | nil =>
            simp only [List.nil_append] at h2
            injection h2 with h3 h4
            left
            refine ⟨h3, ?_⟩
            rw [h4]
            cases c with
            | nil => exact absurd rfl hc
            | cons c0 cs => rfl
          | cons b1 bs2 =>
            right
            exact ih.mpr ⟨b1 :: bs2, c, h2, by simp, hc⟩

theorem emailRegexTest_iff (s : List Char) :
    emailRegexTest s = true ↔ MatchesEmailPattern s := by
  constructor
  · intro h
    unfold emailRegexTest at h
    cases hsp : splitAtFirst '@' s with
    | none => rw [hsp] at h; exact absurd h (by decide)
    | some pq =>
      obtain ⟨a, d⟩ := pq
      rw [hsp] at h
      simp only [Bool.and_eq_true, Bool.not_eq_true', List.all_eq_true] at h
      obtain ⟨⟨⟨hane, haall⟩, hdall⟩, hdot⟩ := h
      obtain ⟨heq, -⟩ := splitAtFirst_sound '@' s a d hsp
      obtain ⟨b, c, hdeq, hb, hc⟩ := (hasInteriorDot_iff d).mp hdot
      refine ⟨a, b, c, by rw [heq, hdeq], ?_, hb, hc, haall, ?_, ?_⟩
      · intro hn; rw [hn] at hane; exact absurd hane (by decide)
      · intro x hx
        exact hdall x (by rw [hdeq]; exact List.mem_append_left _ hx)
      · intro x hx
        exact hdall x (by
          rw [hdeq]
          exact List.mem_append_right _ (List.mem_cons_of_mem _ hx))
  · rintro ⟨a, b, c, rfl, ha, hb, hc, hA, hB, hC⟩
    have hnotin : '@' ∉ a := fun hm => absurd (hA '@' hm) (by decide)
    unfold emailRegexTest
    rw [splitAtFirst_complete '@' a (b ++ '.' :: c) hnotin]
    simp only [Bool.and_eq_true, Bool.not_eq_true', List.all_eq_true]
    refine ⟨⟨⟨?_, hA⟩, ?_⟩, (hasInteriorDot_iff _).mpr ⟨b, c, rfl, hb, hc⟩⟩
    · cases a with
      | nil => exact absurd rfl ha
      | cons a0 as => rfl
    · intro x hx
      rcases List.mem_append.mp hx with hx | hx
      · exact hB x hx
      · rcases List.mem_cons.mp hx with hx | hx
        · rw [hx]; decide
        · exact hC x hx

theorem nameErrorMsg_ne : nameErrorMsg ≠ "" := by decide

theorem emailErrorMsg_ne : emailErrorMsg ≠ "" := by decide

theorem messageErrorMsg_ne : messageErrorMsg ≠ "" := by decide

theorem validateField_name (v : List Char) :
    validateField "name" v =
      (if v = [] ∨ (jsTrim v).length < 2 then nameErrorMsg else "") := by
  unfold validateField
  rw [if_pos rfl]

theorem validateField_email (v : List Char) :
    validateField "email" v =
      (if v = [] ∨ emailRegexTest (jsTrim v) = false then emailErrorMsg else "") := by
  unfold validateField
  rw [if_neg (by decide), if_pos rfl]

theorem validateField_message (v : List Char) :
    validateField "message" v =
      (if v = [] ∨ (jsTrim v).length < 10 then messageErrorMsg else "") := by
  unfold validateField
  rw [if_neg (by decide), if_neg (by decide), if_pos rfl]

theorem validateField_other (f : String) (v : List Char)
    (h1 : f ≠ "name") (h2 : f ≠ "email") (h3 : f ≠ "message") :
    validateField f v = "" := by
  unfold validateField
  rw [if_neg h1, if_neg h2, if_neg h3]

/-- Claim C1: validateField applied to the name field returns the empty
string exactly on non-empty values whose trimmed length is at least 2 and
the name-error message otherwise; applied to the email field it returns the
empty string exactly on non-empty values whose trimmed form matches the
anchored email regex and the email-error message otherwise; applied to the
message field it returns the empty string exactly on non-empty values whose
trimmed length is at least 10 and the message-error message otherwise. -/
theorem validateField_rules (v : List Char) :
    (validateField "name" v = "" ↔ (v ≠ [] ∧ 2 ≤ (jsTrim v).length)) ∧
    (¬ (v ≠ [] ∧ 2 ≤ (jsTrim v).length) → validateField "name" v = nameErrorMsg) ∧
    (validateField "email" v = "" ↔ (v ≠ [] ∧ MatchesEmailPattern (jsTrim v))) ∧
    (¬ (v ≠ [] ∧ MatchesEmailPattern (jsTrim v)) → validateField "email" v = emailErrorMsg) ∧
    (validateField "message" v = "" ↔ (v ≠ [] ∧ 10 ≤ (jsTrim v).length)) ∧
    (¬ (v ≠ [] ∧ 10 ≤ (jsTrim v).length) → validateField "message" v = messageErrorMsg) := by
  refine ⟨?_, ?_, ?_, ?_, ?_, ?_⟩
  · rw [validateField_name]
    by_cases h : v = [] ∨ (jsTrim v).length < 2
    · rw [if_pos h]
      apply iff_of_false nameErrorMsg_ne
      rintro ⟨hne, hle⟩
      rcases h with h | h
      · exact hne h
      · omega
    · rw [if_neg h]
      push_neg at h
      exact iff_of_true rfl ⟨h.1, by have := h.2; omega⟩
  · intro hn
    rw [validateField_name]
    have hcond : v = [] ∨ (jsTrim v).length < 2 := by
      by_cases hv : v = []
      · exact Or.inl hv
      · push_neg at hn
        exact Or.inr (hn hv)
    rw [if_pos hcond]
  · rw [validateField_email]
    by_cases h : v = [] ∨ emailRegexTest (jsTrim v) = false
    · rw [if_pos h]
      apply iff_of_false emailErrorMsg_ne
      rintro ⟨hne, hm⟩
      rcases h with h | h
      · exact hne h
      · rw [(emailRegexTest_iff _).mpr hm] at h
        exact absurd h (by decide)
    · rw [if_neg h]
      push_neg at h
      refine iff_of_true rfl ⟨h.1, (emailRegexTest_iff _).mp ?_⟩
      cases hb : emailRegexTest (jsTrim v)
      · exact absurd hb h.2
      · rfl
  · intro hn
    rw [validateField_email]
    have hcond : v = [] ∨ emailRegexTest (jsTrim v) = false := by
      by_cases hv : v = []
      · exact Or.inl hv
      · push_neg at hn
        refine Or.inr ?_
        cases hb : emailRegexTest (jsTrim v)
        · rfl
        · exact absurd ((emailRegexTest_iff _).mp hb) (hn hv)
    rw [if_pos hcond]
  · rw [validateField_message]
    by_cases h : v = [] ∨ (jsTrim v).length < 10
    · rw [if_pos h]
      apply iff_of_false messageErrorMsg_ne
      rintro ⟨hne, hle⟩
      rcases h with h | h
      · exact hne h
      · omega
    · rw [if_neg h]
      push_neg at h
      exact iff_of_true rfl ⟨h.1, by have := h.2; omega⟩
  · intro hn
    rw [validateField_message]
    have hcond : v = [] ∨ (jsTrim v).length < 10 := by
      by_cases hv : v = []
      · exact Or.inl hv
      · push_neg at hn
        exact Or.inr (hn hv)
    rw [if_pos hcond]

/-- Witness for C1, at the single character S, at a@b.co and at short. -/
theorem validateField_rules_witness :
    validateField "name" ['S'] = nameErrorMsg ∧
    validateField "email" ("a@b.co".toList) = "" ∧
    validateField "message" ("short".toList) = messageErrorMsg := by
  refine ⟨(validateField_rules ['S']).2.1 (by decide), ?_,
    (validateField_rules ("short".toList)).2.2.2.2.2 (by decide)⟩
  exact (validateField_rules ("a@b.co".toList)).2.2.1.mpr
    ⟨by decide, (emailRegexTest_iff _).mp (by decide)⟩

theorem submissionState_eq_sending (s : MState) :
    submissionState s = SubmissionState.Sending ↔ s.isSubmitting = true := by
  unfold submissionState
  cases hb : s.isSubmitting
  · cases hm : s.mailSent <;> simp
  · simp

theorem submissionState_eq_idle (s : MState) :
    submissionState s = SubmissionState.Idle ↔
      (s.isSubmitting = false ∧ s.mailSent = false) := by
  unfold submissionState
  cases hb : s.isSubmitting
  · cases hm : s.mailSent <;> simp
  · simp

theorem submissionState_eq_succeeded (s : MState) :
    submissionState s = SubmissionState.Succeeded ↔
      (s.isSubmitting = false ∧ s.mailSent = true) := by
  unfold submissionState
  cases hb : s.isSubmitting
  · cases hm : s.mailSent <;> simp
  · simp

/-- Claim C5: the two successive error updates performed by handleBlur end
in exactly the state produced by the single-step error recomputation of
handleChange: the blurred field carries the freshly computed message when
it is non-empty and no entry otherwise, and every other field keeps its
entry. -/
theorem blur_change_errors_agree (s : MState) (f : String) (v : List Char) :
    (handleBlur s f v).errors = (handleChange s f v).errors ∧
    ((handleBlur s f v).errors f =
      (if validateField f v = "" then none else some (validateField f v))) ∧
    (∀ g : String, g ≠ f → (handleBlur s f v).errors g = s.errors g) := by
  have hmain : (handleBlur s f v).errors = (handleChange s f v).errors := by
    funext k
    show blurSecondUpdate (blurFirstUpdate s.errors f v) f v k = _
    unfold blurFirstUpdate blurSecondUpdate handleChange
    by_cases he : validateField f v = ""
    · rw [if_pos he, if_pos he]
      by_cases hk : k = f
      · simp [hk, he]
      · simp [hk]
    · rw [if_neg he, if_neg he]
      by_cases hk : k = f
      · simp [hk, he]
      · simp [hk]
  refine ⟨hmain, ?_, ?_⟩
  · rw [congrFun hmain f]
    show (if f = f then _ else _) = _
    rw [if_pos rfl]
  · intro g hg
    rw [congrFun hmain g]
    show (if g = f then _ else _) = _
    rw [if_neg hg]

/-- Witness for C5: blurring the email field with the single character x
on the initial state. -/
theorem blur_change_errors_agree_witness :
    (handleBlur initState "email" ['x']).errors = (handleChange initState "email" ['x']).errors ∧
    (handleBlur initState "email" ['x']).errors "email" = some emailErrorMsg ∧
    (handleBlur initState "email" ['x']).errors "name" = none := by
  have h := blur_change_errors_agree initState "email" ['x']
  exact ⟨h.1, h.2.1.trans (by decide), (h.2.2 "name" (by decide)).trans rfl⟩

/-- Claim C6: a repeated handleChange with the same field and value leaves
both the error map and the form values exactly as a single call does. -/
theorem change_idempotent (s : MState) (f : String) (v : List Char) :
    (handleChange (handleChange s f v) f v).errors = (handleChange s f v).errors ∧
    (handleChange (handleChange s f v) f v).form = (handleChange s f v).form := by
  constructor
  · funext k
    show (if k = f then _ else (handleChange s f v).errors k) = _
    by_cases hk : k = f
    · rw [if_pos hk]
      show _ = (if k = f then _ else _)
      rw [if_pos hk]
    · rw [if_neg hk]
  · funext k
    show (if k = f then v else (handleChange s f v).form k) = _
    by_cases hk : k = f
    · rw [if_pos hk]
      show _ = (if k = f then v else _)
      rw [if_pos hk]
    · rw [if_neg hk]

/-- Claim C7: handleChange on one of the three declared fields stores the
value under that field, recomputes exactly that field error (entry present
with the validator message exactly when the message is non-empty), and
leaves the form values and error entries of every other field untouched. -/
theorem change_frame (s : MState) (f : String) (v : List Char)
    (hf : f ∈ (["name", "email", "message"] : List String)) :
    (handleChange s f v).form f = v ∧
    ((handleChange s f v).errors f =
      (if validateField f v = "" then none else some (validateField f v))) ∧
    (∀ g : String, g ≠ f →
      (handleChange s f v).errors g = s.errors g ∧
      (handleChange s f v).form g = s.form g) := by
  refine ⟨?_, ?_, ?_⟩
  · show (if f = f then v else s.form f) = v
    rw [if_pos rfl]
  · show (if f = f then _ else _) = _
    rw [if_pos rfl]
  · intro g hg
    constructor
    · show (if g = f then _ else s.errors g) = s.errors g
      rw [if_neg hg]
    · show (if g = f then v else s.form g) = s.form g
      rw [if_neg hg]

/-- Witness for C7: typing Su into the name field of the initial state. -/
theorem change_frame_witness :
    (handleChange initState "name" ['S', 'u']).form "name" = ['S', 'u'] ∧
    (handleChange initState "name" ['S', 'u']).errors "name" = none ∧
    (handleChange initState "name" ['S', 'u']).errors "email" = initState.errors "email" ∧
    (handleChange initState "name" ['S', 'u']).form "email" = initState.form "email" := by
  have h := change_frame initState "name" ['S', 'u'] (by decide)
  exact ⟨h.1, h.2.1.trans (by decide),
    (h.2.2 "email" (by decide)).1, (h.2.2 "email" (by decide)).2⟩

/-- Claim C10: validateField accepts every value of a field name other
than name, email and message, and consequently neither handleChange nor
handleBlur with such a field name ever creates an error entry. -/
theorem unknownField_no_error (f : String)
    (h1 : f ≠ "name") (h2 : f ≠ "email") (h3 : f ≠ "message")
    (v : List Char) (s : MState) :
    validateField f v = "" ∧
    (∀ g : String, s.errors g = none → (handleChange s f v).errors g = none) ∧
    (∀ g : String, s.errors g = none → (handleBlur s f v).errors g = none) := by
  have hv : validateField f v = "" := validateField_other f v h1 h2 h3
  refine ⟨hv, ?_, ?_⟩
  · intro g hg
    show (if g = f then _ else s.errors g) = none
    by_cases hk : g = f
    · rw [if_pos hk, if_pos hv]
    · rw [if_neg hk]; exact hg
  · intro g hg
    show blurSecondUpdate (blurFirstUpdate s.errors f v) f v g = none
    unfold blurFirstUpdate blurSecondUpdate
    rw [if_pos hv, if_pos hv]
    by_cases hk : g = f
    · rw [if_pos hk]
    · rw [if_neg hk]; exact hg

/-- Witness for C10: the unknown field name phone on the initial state. -/
theorem unknownField_no_error_witness :
    validateField "phone" ['1'] = "" ∧
    (handleChange initState "phone" ['1']).errors "phone" = none ∧
    (handleBlur initState "phone" ['1']).errors "name" = none := by
  have h := unknownField_no_error "phone" (by decide) (by decide) (by decide) ['1'] initState
  exact ⟨h.1, h.2.1 "phone" rfl, h.2.2 "name" rfl⟩

/-- Claim C2: a submit from Idle on values that fail validation keeps the
submission state Idle, keeps the form values, replaces the whole error map
with the validateAll result, schedules no send callback and leaves the
submitting flag down, and directs focus to the first invalid field in the
declared order name, email, message. -/
theorem blocked_submit (s : MState)
    (hidle : submissionState s = SubmissionState.Idle)
    (hbad : validateAll s.form ≠ []) :
    submissionState (step s Event.submit) = SubmissionState.Idle ∧
    (step s Event.submit).form = s.form ∧
    (step s Event.submit).errors = (fun k => List.lookup k (validateAll s.form)) ∧
    (step s Event.submit).pendingSend = s.pendingSend ∧
    (step s Event.submit).isSubmitting = false ∧
    submitFocusTarget s =
      some (if validateField "name" (s.form "name") ≠ "" then "name"
        else if validateField "email" (s.form "email") ≠ "" then "email"
        else "message") := by
  obtain ⟨hsub, hms⟩ := (submissionState_eq_idle s).mp hidle
  have hstep : step s Event.submit =
      { s with errors := fun k => List.lookup k (validateAll s.form) } := by
    show handleSubmit s = _
    unfold handleSubmit
    rw [if_neg (show ¬ (s.isSubmitting = true) by simp [hsub]), if_pos hbad]
  refine ⟨?_, ?_, ?_, ?_, ?_, ?_⟩
  · rw [hstep]
    exact (submissionState_eq_idle _).mpr ⟨hsub, hms⟩
  · rw [hstep]
  · rw [hstep]
  · rw [hstep]
  · rw [hstep]
    exact hsub
  · unfold submitFocusTarget
    rw [if_neg (show ¬ (s.isSubmitting = true) by simp [hsub]), if_pos hbad]
    by_cases h1 : s.form "name" = [] ∨ (jsTrim (s.form "name")).length < 2
    · rw [validateField_name, if_pos h1, if_pos nameErrorMsg_ne]
      unfold validateAll
      rw [if_pos h1]
      simp
    · rw [validateField_name, if_neg h1, if_neg (show ¬ (("" : String) ≠ "") by simp)]
      by_cases h2 : s.form "email" = [] ∨ emailRegexTest (jsTrim (s.form "email")) = false
      · rw [validateField_email, if_pos h2, if_pos emailErrorMsg_ne]
        unfold validateAll
        rw [if_neg h1, if_pos h2]
        simp
      · rw [validateField_email, if_neg h2, if_neg (show ¬ (("" : String) ≠ "") by simp)]
        have h3 : s.form "message" = [] ∨ (jsTrim (s.form "message")).length < 10 := by
          by_contra h3
          apply hbad
          unfold validateAll
          rw [if_neg h1, if_neg h2, if_neg h3]
          rfl
        unfold validateAll
        rw [if_neg h1, if_neg h2, if_pos h3]
        simp

/-- Witness for C2: the form state name empty, email x, message hi gets
all three errors, stays Idle, and focuses the name field. -/
theorem blocked_submit_witness :
    submissionState (step c2State Event.submit) = SubmissionState.Idle ∧
    (step c2State Event.submit).form = c2State.form ∧
    (step c2State Event.submit).errors = (fun k => List.lookup k (validateAll c2State.form)) ∧
    (step c2State Event.submit).pendingSend = c2State.pendingSend ∧
    (step c2State Event.submit).isSubmitting = false ∧
    submitFocusTarget c2State = some "name" ∧
    List.lookup "name" (validateAll c2State.form) = some nameErrorMsg ∧
    List.lookup "email" (validateAll c2State.form) = some emailErrorMsg ∧
    List.lookup "message" (validateAll c2State.form) = some messageErrorMsg := by
  have h := blocked_submit c2State (by decide) (by decide)
  exact ⟨h.1, h.2.1, h.2.2.1, h.2.2.2.1, h.2.2.2.2.1,
    h.2.2.2.2.2.trans (by decide), by decide, by decide, by decide⟩

theorem sendInv_step (s : MState) (e : Event) (h : SendInv s) : SendInv (step s e) := by
  cases e with
  | change f v => exact h
  | blur f v => exact h
  | submit =>
    show SendInv (handleSubmit s)
    unfold handleSubmit
    by_cases hs : s.isSubmitting = true
    · rw [if_pos hs]; exact h
    · rw [if_neg hs]
      have hs' : s.isSubmitting = false := by
        cases hb : s.isSubmitting
        · rfl
        · exact absurd hb hs
      by_cases hv : validateAll s.form ≠ []
      · rw [if_pos hv]; exact h
      · rw [if_neg hv]
        unfold SendInv at h ⊢
        rw [hs'] at h
        simp only [if_neg (by decide : ¬ (false = true))] at h
        show (s.pendingSend ++ [sendDelayMs]).length = _
        simp [List.length_append, h]
  | sendTimer =>
    show SendInv (fireSendTimer s)
    unfold fireSendTimer
    by_cases hps : s.pendingSend = []
    · rw [if_pos hps]; exact h
    · rw [if_neg hps]
      unfold SendInv at h ⊢
      have hs : s.isSubmitting = true := by
        cases hb : s.isSubmitting
        · rw [hb] at h
          simp only [if_neg (by decide : ¬ (false = true))] at h
          exact absurd (List.length_eq_zero.mp h) hps
        · rfl
      rw [hs] at h
      simp at h
      show s.pendingSend.tail.length = _
      simp [List.length_tail, h]
  | revertTimer =>
    show SendInv (fireRevertTimer s)
    unfold fireRevertTimer
    by_cases hpr : s.pendingRevert = []
    · rw [if_pos hpr]; exact h
    · rw [if_neg hpr]; exact h
  | escape =>
    show SendInv (pressEscape s)
    unfold pressEscape
    by_cases hl : s.escListener = true
    · rw [if_pos hl]; exact h
    · rw [if_neg hl]; exact h

theorem sendInv_cleanup (s : MState) (h : SendInv s) : SendInv (unmountCleanup s) := h

theorem reachable_sendInv {s : MState} (h : Reachable s) : SendInv s := by
  induction h with
  | init => rfl
  | next e hr ih => exact sendInv_step _ e ih
  | cleanup hr ih => exact sendInv_cleanup _ ih

/-- Counterexample to C4 as stated: in the reachable Succeeded toast
window (form refilled with valid values while the 3000 ms hide is still
pending) the submit trigger is enabled, so a submission is attempted and a
send starts although the submission state is Succeeded, not Idle. -/
theorem submit_only_while_idle_cex :
    Reachable refilledSuccState ∧
    submissionState refilledSuccState = SubmissionState.Succeeded ∧
    refilledSuccState.pendingSend = [] ∧
    (step refilledSuccState Event.submit).pendingSend = [sendDelayMs] ∧
    (step refilledSuccState Event.submit).isSubmitting = true := by
  refine ⟨?_, by decide, by decide, by decide, by decide⟩
  unfold refilledSuccState sendingState goodState
  exact Reachable.next _ (Reachable.next _ (Reachable.next _ (Reachable.next _
    (Reachable.next _ (Reachable.next _ (Reachable.next _ (Reachable.next _
      Reachable.init)))))))

/-- Claim C4 (amended): in every reachable state a submission can only be
attempted while the submission state is not Sending: a submit event while
Sending leaves the state untouched and starts no second send, so at most
one send callback is ever in flight. -/
theorem submit_gating (s : MState) (hr : Reachable s) :
    (submissionState s = SubmissionState.Sending → step s Event.submit = s) ∧
    ((step s Event.submit).pendingSend ≠ s.pendingSend →
      submissionState s ≠ SubmissionState.Sending) ∧
    s.pendingSend.length ≤ 1 := by
  have hinv := reachable_sendInv hr
  have hnoop : submissionState s = SubmissionState.Sending → step s Event.submit = s := by
    intro hsend
    have hs := (submissionState_eq_sending s).mp hsend
    show handleSubmit s = s
    unfold handleSubmit
    rw [if_pos hs]
  refine ⟨hnoop, ?_, ?_⟩
  · intro hne hsend
    rw [hnoop hsend] at hne
    exact hne rfl
  · unfold SendInv at hinv
    rw [hinv]
    cases hb : s.isSubmitting <;> simp

/-- Witness for the amended C4, at the initial state. -/
theorem submit_gating_witness :
    (submissionState initState = SubmissionState.Sending →
      step initState Event.submit = initState) ∧
    ((step initState Event.submit).pendingSend ≠ initState.pendingSend →
      submissionState initState ≠ SubmissionState.Sending) ∧
    initState.pendingSend.length ≤ 1 :=
  submit_gating initState Reachable.init

/-- Claim C8: while the submission state is Succeeded and the keydown
listener is attached, the Escape dismissal immediately yields Idle, for
any remaining pending hide callback. -/
theorem escape_dismisses (s : MState) (hl : s.escListener = true)
    (hsucc : submissionState s = SubmissionState.Succeeded) :
    submissionState (step s Event.escape) = SubmissionState.Idle := by
  obtain ⟨hs, hm⟩ := (submissionState_eq_succeeded s).mp hsucc
  show submissionState (pressEscape s) = _
  unfold pressEscape
  rw [if_pos hl]
  exact (submissionState_eq_idle _).mpr ⟨hs, rfl⟩

/-- Witness for C8: a Succeeded state whose 3000 ms hide callback is still
fully pending. -/
theorem escape_dismisses_witness :
    submissionState (step succState Event.escape) = SubmissionState.Idle :=
  escape_dismisses succState rfl (by decide)

/-- Claim C9 fails on the code: after a valid submission the 700 ms send
callback is pending, and the unmount cleanup (which only removes the
keydown listener, there being no stored timer handles and no clearTimeout
in the source) leaves it pending, so the callback still fires and mutates
the controller state after disposal. -/
theorem teardown_leaves_timer :
    sendingState.pendingSend = [sendDelayMs] ∧
    (unmountCleanup sendingState).pendingSend = [sendDelayMs] ∧
    (unmountCleanup sendingState).pendingRevert = sendingState.pendingRevert ∧
    (unmountCleanup sendingState).mailSent = false ∧
    (fireSendTimer (unmountCleanup sendingState)).mailSent = true :=
  ⟨by decide, by decide, rfl, by decide, by decide⟩

/-- Counterexample to C3 as stated: a keystroke that empties the only
non-empty field also clears FormValues, yet that reachable step is an Idle
to Idle transition, not Sending to Succeeded, so clearing does not happen
only on the Sending to Succeeded step. -/
theorem clearsForm_iff_cex :
    Reachable nameOnlyState ∧
    ClearsForm nameOnlyState (Event.change "name" []) ∧
    ¬ SendToSucc nameOnlyState (Event.change "name" []) := by
  refine ⟨?_, ⟨?_, ?_⟩, ?_⟩
  · unfold nameOnlyState
    exact Reachable.next _ Reachable.init
  · intro h
    exact absurd (congrFun h "name") (by decide)
  · funext k
    show (if k = "name" then ([] : List Char) else nameOnlyState.form k) = []
    by_cases hk : k = "name"
    · rw [if_pos hk]
    · rw [if_neg hk]
      show (if k = "name" then ['x'] else initState.form k) = []
      rw [if_neg hk]
      rfl
  · rintro ⟨h1, -⟩
    exact absurd ((submissionState_eq_sending _).mp h1) (by decide)

/-- Claim C3 (amended): from a clean Idle state with valid values, submit
moves the state to Sending with the 700 ms send callback scheduled and the
values kept; the send callback firing moves it to Succeeded, resets
FormValues to all-empty and schedules the 3000 ms hide callback; the hide
callback firing returns it to Idle.  Moreover, over reachable states and
excluding keystroke steps (which can also empty the form) and steps whose
form is already all-empty, a step clears FormValues exactly when it is
the Sending to Succeeded transition. -/
theorem submit_success_lifecycle :
    (∀ s : MState,
      submissionState s = SubmissionState.Idle → validateAll s.form = [] →
      s.pendingSend = [] → s.pendingRevert = [] →
      submissionState (step s Event.submit) = SubmissionState.Sending ∧
      (step s Event.submit).pendingSend = [sendDelayMs] ∧
      (step s Event.submit).form = s.form ∧
      submissionState (step (step s Event.submit) Event.sendTimer) =
        SubmissionState.Succeeded ∧
      (step (step s Event.submit) Event.sendTimer).form = emptyFormVals ∧
      (step (step s Event.submit) Event.sendTimer).pendingRevert = [revertDelayMs] ∧
      submissionState
        (step (step (step s Event.submit) Event.sendTimer) Event.revertTimer) =
        SubmissionState.Idle) ∧
    (∀ (s : MState) (e : Event), Reachable s → isChangeEvent e = false →
      s.form ≠ emptyFormVals → (ClearsForm s e ↔ SendToSucc s e)) := by
  constructor
  · intro s hidle hval hps hpr
    obtain ⟨hs, hm⟩ := (submissionState_eq_idle s).mp hidle
    have h1 : step s Event.submit =
        { s with
          errors := (fun k => List.lookup k (validateAll s.form)),
          isSubmitting := true,
          pendingSend := s.pendingSend ++ [sendDelayMs] } := by
      show handleSubmit s = _
      unfold handleSubmit
      rw [if_neg (show ¬ (s.isSubmitting = true) by simp [hs]),
        if_neg (show ¬ (validateAll s.form ≠ []) by simp [hval])]
    have e2 : (step s Event.submit).pendingSend = [sendDelayMs] := by
      rw [h1]
      show s.pendingSend ++ [sendDelayMs] = _
      rw [hps]
      rfl
    have h2 : step (step s Event.submit) Event.sendTimer =
        { (step s Event.submit) with
          isSubmitting := false,
          mailSent := true,
          form := emptyFormVals,
          pendingSend := (step s Event.submit).pendingSend.tail,
          pendingRevert := (step s Event.submit).pendingRevert ++ [revertDelayMs] } := by
      show fireSendTimer _ = _
      unfold fireSendTimer
      rw [if_neg (show ¬ ((step s Event.submit).pendingSend = []) by rw [e2]; simp)]
    have e6 : (step (step s Event.submit) Event.sendTimer).pendingRevert =
        [revertDelayMs] := by
      rw [h2]
      show (step s Event.submit).pendingRevert ++ [revertDelayMs] = _
      have hh : (step s Event.submit).pendingRevert = s.pendingRevert := by rw [h1]
      rw [hh, hpr]
      rfl
    refine ⟨?_, e2, ?_, ?_, ?_, e6, ?_⟩
    · rw [h1]
      exact (submissionState_eq_sending _).mpr rfl
    · rw [h1]
    · rw [h2]
      exact (submissionState_eq_succeeded _).mpr ⟨rfl, rfl⟩
    · rw [h2]
    · have h3 : step (step (step s Event.submit) Event.sendTimer) Event.revertTimer =
          { (step (step s Event.submit) Event.sendTimer) with
            mailSent := false,
            pendingRevert :=
              (step (step s Event.submit) Event.sendTimer).pendingRevert.tail } := by
        show fireRevertTimer _ = _
        unfold fireRevertTimer
        rw [if_neg (show ¬ _ = ([] : List Nat) by rw [e6]; simp)]
      rw [h3]
      refine (submissionState_eq_idle _).mpr ⟨?_, rfl⟩
      show (step (step s Event.submit) Event.sendTimer).isSubmitting = false
      rw [h2]
  · intro s e hr hnc hne
    have hinv := reachable_sendInv hr
    cases e with
    | change f v => simp [isChangeEvent] at hnc
    | blur f v =>
      constructor
      · rintro ⟨-, habs⟩
        exact absurd habs hne
      · rintro ⟨h1, h2⟩
        have hsame : submissionState (step s (Event.blur f v)) = submissionState s := rfl
        rw [hsame, h1] at h2
        exact absurd h2 (by decide)
    | submit =>
      constructor
      · rintro ⟨-, habs⟩
        have hform : (step s Event.submit).form = s.form := by
          show (handleSubmit s).form = s.form
          unfold handleSubmit
          by_cases hs : s.isSubmitting = true
          · rw [if_pos hs]
          · rw [if_neg hs]
            by_cases hv : validateAll s.form ≠ []
            · rw [if_pos hv]
            · rw [if_neg hv]
        rw [hform] at habs
        exact absurd habs hne
      · rintro ⟨h1, h2⟩
        have hs := (submissionState_eq_sending s).mp h1
        have hstep : step s Event.submit = s := by
          show handleSubmit s = s
          unfold handleSubmit
          rw [if_pos hs]
        rw [hstep, h1] at h2
        exact absurd h2 (by decide)
    | sendTimer =>
      by_cases hps : s.pendingSend = []
      · have hstep : step s Event.sendTimer = s := by
          show fireSendTimer s = s
          unfold fireSendTimer
          rw [if_pos hps]
        constructor
        · rintro ⟨-, habs⟩
          rw [hstep] at habs
          exact absurd habs hne
        · rintro ⟨h1, -⟩
          have hs := (submissionState_eq_sending s).mp h1
          unfold SendInv at hinv
          rw [hps, hs] at hinv
          simp at hinv
      · have hs : s.isSubmitting = true := by
          unfold SendInv at hinv
          cases hb : s.isSubmitting
          · rw [hb] at hinv
            simp at hinv
            exact absurd hinv hps
          · rfl
        have hstep : step s Event.sendTimer =
            { s with
              isSubmitting := false,
              mailSent := true,
              form := emptyFormVals,
              pendingSend := s.pendingSend.tail,
              pendingRevert := s.pendingRevert ++ [revertDelayMs] } := by
          show fireSendTimer s = _
          unfold fireSendTimer
          rw [if_neg hps]
        apply iff_of_true
        · exact ⟨hne, by rw [hstep]⟩
        · exact ⟨(submissionState_eq_sending s).mpr hs,
            by rw [hstep]; exact (submissionState_eq_succeeded _).mpr ⟨rfl, rfl⟩⟩
    | revertTimer =>
      have hform : (step s Event.revertTimer).form = s.form := by
        show (fireRevertTimer s).form = s.form
        unfold fireRevertTimer
        by_cases hpr : s.pendingRevert = []
        · rw [if_pos hpr]
        · rw [if_neg hpr]
      have hsubm : (step s Event.revertTimer).isSubmitting = s.isSubmitting := by
        show (fireRevertTimer s).isSubmitting = s.isSubmitting
        unfold fireRevertTimer
        by_cases hpr : s.pendingRevert = []
        · rw [if_pos hpr]
        · rw [if_neg hpr]
      constructor
      · rintro ⟨-, habs⟩
        rw [hform] at habs
        exact absurd habs hne
      · rintro ⟨h1, h2⟩
        have hs := (submissionState_eq_sending s).mp h1
        obtain ⟨hs2, -⟩ := (submissionState_eq_succeeded _).mp h2
        rw [hsubm, hs] at hs2
        exact absurd hs2 (by decide)
    | escape =>
      have hform : (step s Event.escape).form = s.form := by
        show (pressEscape s).form = s.form
        unfold pressEscape
        by_cases hl : s.escListener = true
        · rw [if_pos hl]
        · rw [if_neg hl]
      have hsubm : (step s Event.escape).isSubmitting = s.isSubmitting := by
        show (pressEscape s).isSubmitting = s.isSubmitting
        unfold pressEscape
        by_cases hl : s.escListener = true
        · rw [if_pos hl]
        · rw [if_neg hl]
      constructor
      · rintro ⟨-, habs⟩
        rw [hform] at habs
        exact absurd habs hne
      · rintro ⟨h1, h2⟩
        have hs := (submissionState_eq_sending s).mp h1
        obtain ⟨hs2, -⟩ := (submissionState_eq_succeeded _).mp h2
        rw [hsubm, hs] at hs2
        exact absurd hs2 (by decide)

/-- Witness for the amended C3: the concrete valid form ab, a@b.co and a
seventeen-character message runs the full Idle, Sending, Succeeded, Idle
lifecycle, and the send-callback step from the reachable Sending state is
a clearing step. -/
theorem submit_success_lifecycle_witness :
    (submissionState (step goodState Event.submit) = SubmissionState.Sending ∧
      (step goodState Event.submit).pendingSend = [sendDelayMs] ∧
      (step goodState Event.submit).form = goodState.form ∧
      submissionState (step (step goodState Event.submit) Event.sendTimer) =
        SubmissionState.Succeeded ∧
      (step (step goodState Event.submit) Event.sendTimer).form = emptyFormVals ∧
      (step (step goodState Event.submit) Event.sendTimer).pendingRevert =
        [revertDelayMs] ∧
      submissionState
        (step (step (step goodState Event.submit) Event.sendTimer) Event.revertTimer) =
        SubmissionState.Idle) ∧
    (ClearsForm sendingState Event.sendTimer ↔ SendToSucc sendingState Event.sendTimer) := by
  constructor
  · exact submit_success_lifecycle.1 goodState (by decide) (by decide) (by decide) (by decide)
  · apply submit_success_lifecycle.2 sendingState Event.sendTimer
    · unfold sendingState goodState
      exact Reachable.next _ (Reachable.next _ (Reachable.next _ (Reachable.next _
        Reachable.init)))
    · rfl
    · intro h
      exact absurd (congrFun h "name") (by decide)

end ContactForm
